import Mathlib

/-!
Shallow embedding of `src/main.py` (a wine-shop crawler that extracts product
records from product pages and enriches them with Vivino ratings).

Modelling conventions, fixed once for the whole file:

* Python `str` values are Lean `String`s; character-level work happens on
  `List Char` (`String.data`).
* Python `float`s are modelled as exact rationals (`ℚ`).  Every number the
  program parses comes from decimal digit strings, so no claim depends on
  binary rounding artefacts of IEEE floats.
* The regular expressions of the source are embedded by a small backtracking
  matcher (`RE`, `reSearch`, `reFindAll`) whose priority order (leftmost
  start, greedy quantifiers, left-biased alternation) mirrors Python's `re`
  module on the concrete patterns used by the program.
* Python's `\s`, `\d` and `\w` classes are modelled on the character
  repertoire the program actually processes: ASCII whitespace, ASCII digits,
  and ASCII alphanumerics plus `_` plus the Hebrew letters.
* `html.unescape` (a standard-library collaborator) is modelled by the
  numeric character references and the XML-predefined named references; the
  full HTML5 named-entity table is external data.  No claim exercises it.
-/

-- ===========================================================================
-- Python-level character and string primitives
-- ===========================================================================

/-- Python regex class `\s` on the ASCII repertoire. -/
def isPyWs (c : Char) : Bool :=
  c == ' ' || c == '\t' || c == '\n' || c == '\r' || c == '\x0b' || c == '\x0c'

/-- Python regex class `\w` (word character) on the repertoire the program
processes: ASCII alphanumerics, underscore, and the Hebrew letters. -/
def isPyWord (c : Char) : Bool :=
  c.isAlphanum || c == '_' || (0x5d0 ≤ c.toNat && c.toNat ≤ 0x5ea)

/-- Numeric value of a decimal digit string (the effect of Python `int` on a
string of ASCII digits, as produced by the `\d{2,5}` capture groups). -/
def digitsToNat (ds : List Char) : Nat :=
  ds.foldl (fun n c => n * 10 + (c.toNat - 48)) 0

/-- Python `float(g)` for a capture drawn from `[0-9.]` (the only shapes the
program feeds to `float` after stripping commas): digits with at most one
decimal point.  Returns `none` where Python would raise `ValueError`.  The
value `i.f` is the exact rational `(i·10^k + f) / 10^k`, built with `mkRat`
so that it evaluates inside the kernel. -/
def pyFloat? (g : List Char) : Option ℚ :=
  let intPart := g.takeWhile Char.isDigit
  let rest := g.drop intPart.length
  match rest with
  | [] => if intPart = [] then none else some (mkRat (digitsToNat intPart) 1)
  | '.' :: frac =>
      if frac.all Char.isDigit then
        if intPart = [] && frac = [] then none
        else some (mkRat (digitsToNat intPart * 10 ^ frac.length + digitsToNat frac)
                     (10 ^ frac.length))
      else none
  | _ => none

/-- Python `s.replace(pat, rep)` on character lists: left-to-right,
non-overlapping.  The fuel starts at `s.length`; each step consumes at least
one character of `s`, so the fuel never runs out. -/
def replaceAllAux (pat rep : List Char) : Nat → List Char → List Char
  | 0, s => s
  | _ + 1, [] => []
  | fuel + 1, c :: cs =>
      if pat ≠ [] ∧ pat.isPrefixOf (c :: cs) then
        rep ++ replaceAllAux pat rep fuel ((c :: cs).drop pat.length)
      else
        c :: replaceAllAux pat rep fuel cs

def replaceAll (pat rep s : List Char) : List Char :=
  replaceAllAux pat rep s.length s

/-- Python `s.strip()` (whitespace at both ends). -/
def pyStripChars (s : List Char) : List Char :=
  ((s.dropWhile isPyWs).reverse.dropWhile isPyWs).reverse

def pyStrip (s : String) : String :=
  String.mk (pyStripChars s.data)

/-- Effect of `re.sub(r"\s+", " ", s)`: every maximal whitespace run becomes a
single space.  Fueled by the length of the input for the same reason as
`replaceAllAux`. -/
def collapseWsAux : Nat → List Char → List Char
  | 0, s => s
  | _ + 1, [] => []
  | fuel + 1, c :: cs =>
      if isPyWs c then ' ' :: collapseWsAux fuel (cs.dropWhile isPyWs)
      else c :: collapseWsAux fuel cs

def collapseWs (s : List Char) : List Char :=
  collapseWsAux s.length s

/-- One HTML character reference at the head of the input: the XML-predefined
named references and numeric references (see the file header).  Returns the
replacement and the rest of the input. -/
def matchEntity (s : List Char) : Option (List Char × List Char) :=
  let named : List (List Char × Char) :=
    [("&amp;".data, '&'), ("&lt;".data, '<'), ("&gt;".data, '>'),
     ("&quot;".data, '"'), ("&apos;".data, Char.ofNat 39)]
  match named.find? (fun p => p.1.isPrefixOf s) with
  | some p => some ([p.2], s.drop p.1.length)
  | none =>
    match s with
    | '&' :: '#' :: rest =>
        let digs := rest.takeWhile Char.isDigit
        (match rest.drop digs.length with
         | ';' :: tail =>
             if digs = [] then none
             else some ([Char.ofNat (digitsToNat digs)], tail)
         | _ => none)
    | _ => none

/-- Python `html.unescape`, under the modelling convention of the header. -/
def htmlUnescapeAux : Nat → List Char → List Char
  | 0, s => s
  | _ + 1, [] => []
  | fuel + 1, c :: cs =>
      if c = '&' then
        match matchEntity (c :: cs) with
        | some (rep, rest) => rep ++ htmlUnescapeAux fuel rest
        | none => c :: htmlUnescapeAux fuel cs
      else c :: htmlUnescapeAux fuel cs

def htmlUnescape (s : List Char) : List Char :=
  htmlUnescapeAux s.length s

/-- Source `normalize_name`: unescape, collapse whitespace runs, strip. -/
def normalize_name (name : String) : String :=
  String.mk (pyStripChars (collapseWs (htmlUnescape name.data)))

/-- Contiguous-sublist test used to model Python `a in b` on strings. -/
def listInfix (needle : List Char) : List Char → Bool
  | [] => needle.isEmpty
  | c :: t => needle.isPrefixOf (c :: t) || listInfix needle t

/-- Python `a in b` on strings (substring test). -/
def strContains (hay needle : String) : Bool :=
  listInfix needle.data hay.data

/-- Python `a or b` for strings: the left operand unless it is empty. -/
def pyOrStr (a b : String) : String :=
  if a = "" then b else a

/-- Python `s.lower()`.  ASCII case folding; the Hebrew letters the program
also handles have no case. -/
def pyLower (s : String) : String :=
  String.mk (s.data.map Char.toLower)

-- ===========================================================================
-- A small backtracking regex matcher
-- ===========================================================================

/-- Regex syntax covering the patterns of the source.  Quantifiers apply to a
character class (`rep`), which is all the source's patterns need.  `notNext`
is the zero-width check used to model a `\b` that follows a word character:
it succeeds when the input is exhausted or the next character fails the
predicate. -/
inductive RE where
  | eps : RE
  | cls (p : Char → Bool) : RE
  | seq (a b : RE) : RE
  | alt (a b : RE) : RE
  | opt (a : RE) : RE
  | rep (p : Char → Bool) (lo : Nat) (hi : Option Nat) : RE
  | notNext (p : Char → Bool) : RE

/-- Literal string (case-sensitive). -/
def RE.lit (s : String) : RE :=
  s.data.foldr (fun c r => RE.seq (RE.cls (fun x => x == c)) r) RE.eps

/-- Literal string under `re.IGNORECASE` (ASCII case folding). -/
def RE.litCI (s : String) : RE :=
  s.data.foldr (fun c r => RE.seq (RE.cls (fun x => x.toLower == c.toLower)) r) RE.eps

/-- Greedy possibilities of `p{lo,hi}` at `s`: the rests after consuming `k`
characters of the class, longest first (Python's backtracking order). -/
def repRests (p : Char → Bool) (lo : Nat) (hi : Option Nat) (s : List Char) : List (List Char) :=
  let run := (s.takeWhile p).length
  let maxK := min run (hi.getD run)
  if maxK < lo then []
  else (List.range (maxK - lo + 1)).map (fun i => s.drop (maxK - i))

/-- All ways a pattern can match a prefix of `s`, as the list of rests, in
Python's backtracking priority order (first element = Python's choice). -/
def reMatches : RE → List Char → List (List Char)
  | .eps, s => [s]
  | .cls _, [] => []
  | .cls p, c :: s => if p c then [s] else []
  | .seq a b, s => (reMatches a s).flatMap (reMatches b)
  | .alt a b, s => reMatches a s ++ reMatches b s
  | .opt a, s => reMatches a s ++ [s]
  | .rep p lo hi, s => repRests p lo hi s
  | .notNext _, [] => [[]]
  | .notNext p, c :: s => if p c then [] else [c :: s]

/-- Match `pre ⬝ (grp) ⬝ post` anchored at `s`.  Returns the characters
captured by `grp` and the rest of the input after the whole match, both for
the highest-priority successful backtracking path. -/
def matchAt (pre grp post : RE) (s : List Char) : Option (List Char × List Char) :=
  (reMatches pre s).findSome? fun r1 =>
    (reMatches grp r1).findSome? fun r2 =>
      (reMatches post r2).head?.map fun r3 =>
        (r1.take (r1.length - r2.length), r3)

/-- Python `re.search` for a pattern with one capture group: leftmost match
wins; within a start position, backtracking priority order. -/
def reSearch (pre grp post : RE) : List Char → Option (List Char × List Char)
  | [] => matchAt pre grp post []
  | c :: t =>
      match matchAt pre grp post (c :: t) with
      | some r => some r
      | none => reSearch pre grp post t

/-- Python `re.finditer`, collecting the capture of each non-overlapping
match.  Every pattern it is used on consumes at least one character per
match, so fuel `s.length + 1` never runs out. -/
def reFindAllAux (pre grp post : RE) : Nat → List Char → List (List Char)
  | 0, _ => []
  | fuel + 1, s =>
      match reSearch pre grp post s with
      | none => []
      | some (g, rest) =>
          if rest.length = s.length then g :: reFindAllAux pre grp post fuel (rest.drop 1)
          else g :: reFindAllAux pre grp post fuel rest

def reFindAll (pre grp post : RE) (s : List Char) : List (List Char) :=
  reFindAllAux pre grp post (s.length + 1) s

-- ===========================================================================
-- The source's compiled patterns, and `parse_price` / `extract_ml`
-- ===========================================================================

/-- Capture group of `PRICE_RE = ([0-9]+(?:[.,][0-9]+)?)`. -/
def priceGrp : RE :=
  .seq (.rep Char.isDigit 1 none)
    (.opt (.seq (.cls (fun c => c == '.' || c == ',')) (.rep Char.isDigit 1 none)))

/-- Capture group of `ML_RE = (\d{2,5})\s*(?:ml|מ״ל|מל|ML|Ml)\b` (IGNORECASE). -/
def mlGrp : RE := .rep Char.isDigit 2 (some 5)

/-- Tail of `ML_RE` after the capture group.  The trailing `\b` always sits
after a word character here, so it is the `notNext isPyWord` check. -/
def mlPost : RE :=
  .seq (.rep isPyWs 0 none)
    (.seq (.alt (.litCI "ml")
            (.alt (.lit "מ״ל")
              (.alt (.lit "מל") (.alt (.litCI "ML") (.litCI "Ml")))))
      (.notNext isPyWord))

/-- Capture group of `ML_NUMBER_RE = (\d{2,5})`. -/
def mlNumberGrp : RE := .rep Char.isDigit 2 (some 5)

/-- Python `text.replace(",", "")` followed by `String.data`. -/
def cleanCommas (s : String) : List Char :=
  s.data.filter (fun c => c != ',')

/-- Body of `parse_price` after the comma strip: `PRICE_RE.search` and
`float` on the capture. -/
def parsePriceCore (cleaned : List Char) : Option ℚ :=
  match reSearch .eps priceGrp .eps cleaned with
  | some (g, _) => pyFloat? g
  | none => none

/-- Source `parse_price`. -/
def parse_price (text : String) : Option ℚ :=
  if text = "" then none else parsePriceCore (cleanCommas text)

/-- The `ML_RE` branch of `extract_ml` on the comma-stripped text. -/
def mlUnitSearch (cleaned : List Char) : Option Nat :=
  match reSearch .eps mlGrp mlPost cleaned with
  | some (g, _) => some (digitsToNat g)
  | none => none

/-- The `ML_NUMBER_RE` branch of `extract_ml` on the comma-stripped text. -/
def mlBareSearch (cleaned : List Char) : Option Nat :=
  match reSearch .eps mlNumberGrp .eps cleaned with
  | some (g, _) => some (digitsToNat g)
  | none => none

/-- Body of `extract_ml` after the comma strip: unit-suffixed number first
(no range check), otherwise a bare 2–5 digit number gated to `[50, 3000]`. -/
def extractMlCore (cleaned : List Char) : Option Nat :=
  match mlUnitSearch cleaned with
  | some ml => some ml
  | none =>
      match mlBareSearch cleaned with
      | some ml => if 50 ≤ ml ∧ ml ≤ 3000 then some ml else none
      | none => none

/-- Source `extract_ml`: strip comma thousands separators, then match. -/
def extract_ml (text : String) : Option Nat :=
  if text = "" then none else extractMlCore (cleanCommas text)

example : extract_ml "1,500 ml" = some 1500 := by decide
example : extract_ml "9999 ml" = some 9999 := by decide
example : extract_ml "4000" = none := by decide
example : extract_ml "2000" = some 2000 := by decide
example : extract_ml "45" = none := by decide
example : extract_ml "500mla" = some 500 := by decide
example : parse_price "89,90" = some 8990 := by decide
example : parse_price "NIS 89.90!" = some (mkRat 899 10) := by decide
example : normalize_name "  a   b " = "a b" := by decide

-- ===========================================================================
-- JSON values (the payloads of `application/ld+json` scripts)
-- ===========================================================================

mutual
/-- Parsed JSON payload.  JSON numbers are modelled by the integers the
program encounters; none of the claims involves a fractional JSON number. -/
inductive Json where
  | str (s : String)
  | num (n : Int)
  | bool (b : Bool)
  | null
  | arr (xs : JsonItems)
  | obj (fs : JsonFields)
inductive JsonItems where
  | nil
  | cons (hd : Json) (tl : JsonItems)
inductive JsonFields where
  | nil
  | cons (key : String) (val : Json) (tl : JsonFields)
end

def JsonItems.toList : JsonItems → List Json
  | .nil => []
  | .cons h t => h :: t.toList

/-- Python `dict.get` on a JSON object. -/
def jlookup : JsonFields → String → Option Json
  | .nil, _ => none
  | .cons k v t, key => if k == key then some v else jlookup t key

/-- Python truthiness of a JSON-decoded value. -/
def jsonTruthy : Json → Bool
  | .str s => s != ""
  | .num n => n != 0
  | .bool b => b
  | .null => false
  | .arr .nil => false
  | .arr _ => true
  | .obj .nil => false
  | .obj _ => true

mutual
/-- Python `repr` of a JSON-decoded value (strings quoted).  Claims never
inspect container reprs; they are included so `str(price)` is total. -/
def pyRepr : Json → String
  | .str s => "\x27" ++ s ++ "\x27"
  | .num n => toString n
  | .bool b => if b then "True" else "False"
  | .null => "None"
  | .arr xs => "[" ++ pyReprItems xs ++ "]"
  | .obj fs => "\x7b" ++ pyReprFields fs ++ "\x7d"
def pyReprItems : JsonItems → String
  | .nil => ""
  | .cons h .nil => pyRepr h
  | .cons h t => pyRepr h ++ ", " ++ pyReprItems t
def pyReprFields : JsonFields → String
  | .nil => ""
  | .cons k v .nil => "\x27" ++ k ++ "\x27: " ++ pyRepr v
  | .cons k v t => "\x27" ++ k ++ "\x27: " ++ pyRepr v ++ ", " ++ pyReprFields t
end

/-- Python `str` of a JSON-decoded value. -/
def pyStr : Json → String
  | .str s => s
  | j => pyRepr j

-- ===========================================================================
-- The parsed-document model
-- ===========================================================================

/-- Result of a CSS-selector / tag query on the parsed page.  The HTML tree
machinery itself is the external capability; an element is what the program
reads off it: its attributes and its `get_text(" ", strip=True)` text. -/
structure Element where
  attrs : List (String × String) := []
  text : String := ""
deriving DecidableEq

/-- Python `tag.get(key)`. -/
def attrGet (el : Element) (key : String) : Option String :=
  (el.attrs.find? (fun p => p.1 == key)).map (fun p => p.2)

/-- Python `tag.get(key, default)`. -/
def attrD (el : Element) (key default : String) : String :=
  (attrGet el key).getD default

/-- A fetched product page as the extractors see it: the raw markup (used by
the final `₪` price salvage) together with the results of every soup query
the source performs.  `jsonLd` holds one entry per
`script type="application/ld+json"` tag; `none` marks a payload on which
`json.loads` failed (the source skips it). -/
structure Page where
  html : String := ""
  jsonLd : List (Option Json) := []
  /-- soup.find("meta", property="og:type") -/
  metaOgType : Option Element := none
  /-- soup.find("meta", property="og:title") -/
  metaOgTitle : Option Element := none
  /-- soup.find("meta", itemprop="price") -/
  metaItempropPrice : Option Element := none
  /-- soup.find("meta", property="product:price:amount") -/
  metaProductPriceAmount : Option Element := none
  /-- soup.find("meta", name="twitter:data1") -/
  metaTwitterData1 : Option Element := none
  /-- soup.find("meta", property="og:description") -/
  metaOgDescription : Option Element := none
  /-- soup.select_one("h1.page-title .base") -/
  h1PageTitleBase : Option Element := none
  /-- soup.select_one("h1 .base") -/
  h1Base : Option Element := none
  /-- soup.select_one("h1.product-name") -/
  h1ProductName : Option Element := none
  /-- soup.find("h1") -/
  h1Any : Option Element := none
  /-- soup.select_one("span.price[data-price-amount]") -/
  priceSpanDataAmount : Option Element := none
  /-- soup.select_one(".price-wrapper .price") -/
  priceWrapperPrice : Option Element := none
  /-- soup.find("span", class="price") -/
  priceSpan : Option Element := none
  /-- soup.select_one("#description") -/
  descriptionEl : Option Element := none
  /-- soup.select_one(".product.attribute.description") -/
  productAttrDescriptionEl : Option Element := none
  /-- soup.select_one(".product-short-description") -/
  shortDescriptionEl : Option Element := none
  /-- soup.select_one(".product-info-main") -/
  productInfoMainEl : Option Element := none
  /-- soup.select("table, .additional-attributes-wrapper"), in document order -/
  tableRows : List Element := []

-- ===========================================================================
-- The three extraction strategies and their merge
-- ===========================================================================

/-- One strategy's partial record.  A field is `some v` exactly when the
corresponding Python dict entry is present and truthy; the source's
`if v and not data.get(k)` checks read fields only through truthiness, so
falsy entries (empty string, zero, `None`) collapse to `none`. -/
structure Chunk where
  name : Option String := none
  price_value : Option ℚ := none
  bottle_size_ml : Option Nat := none

def strTruthy? (s : String) : Option String :=
  if s = "" then none else some s

def qTruthy? : Option ℚ → Option ℚ
  | some q => if q = 0 then none else some q
  | none => none

def natTruthy? : Option Nat → Option Nat
  | some n => if n = 0 then none else some n
  | none => none

/-- Python `a or b` / `if v and not data.get(k)` on already-collapsed
option fields: keep the left value when set. -/
def firstSet {α : Type} : Option α → Option α → Option α
  | some x, _ => some x
  | none, b => b

/-- Candidate objects of one script payload: a list payload contributes its
elements, anything else contributes itself (`_from_json_ld`). -/
def jsonCandidates : Option Json → List Json
  | none => []
  | some (.arr xs) => xs.toList
  | some j => [j]

/-- Python `obj.get("@type") in ("Product", ["Product"])`. -/
def isProductType (fs : JsonFields) : Bool :=
  match jlookup fs "@type" with
  | some (.str s) => s == "Product"
  | some (.arr (.cons (.str s) .nil)) => s == "Product"
  | _ => false

/-- JSON-LD objects typed as Product, in document order. -/
def productObjs (page : Page) : List JsonFields :=
  (page.jsonLd.flatMap jsonCandidates).filterMap fun j =>
    match j with
    | .obj fs => if isProductType fs then some fs else none
    | _ => none

/-- Name contributed by one Product object.  A truthy non-string `name`
value would raise `TypeError` in the source and is outside the model; a
falsy one normalises to the empty string, which the truthiness checks
skip — both yield `none`. -/
def objName (fs : JsonFields) : Option String :=
  match jlookup fs "name" with
  | some (.str s) => strTruthy? (normalize_name s)
  | _ => none

/-- Python `offers.get("priceSpecification", {}).get("price")`.  A present
but non-object `priceSpecification` raises in the source (excluded). -/
def offersPriceSpec (offers : JsonFields) : Option Json :=
  match jlookup offers "priceSpecification" with
  | some (.obj ps) => jlookup ps "price"
  | _ => none

/-- Price contributed by one Product object: requires a dict `offers`, takes
`offers["price"] or priceSpecification price`, keeps it only when truthy,
and parses `str(price)` with `parse_price`. -/
def objPrice (fs : JsonFields) : Option ℚ :=
  match jlookup fs "offers" with
  | some (.obj offers) =>
      let priceJson : Option Json :=
        match jlookup offers "price" with
        | some p => if jsonTruthy p then some p else offersPriceSpec offers
        | none => offersPriceSpec offers
      (match priceJson with
       | some p => if jsonTruthy p then qTruthy? (parse_price (pyStr p)) else none
       | none => none)
  | _ => none

/-- Bottle size contributed by one Product object: `extract_ml` over
`" ".join(str(description), str(name))`. -/
def objMl (fs : JsonFields) : Option Nat :=
  let descText :=
    pyStr ((jlookup fs "description").getD (.str "")) ++ " " ++
    pyStr ((jlookup fs "name").getD (.str ""))
  natTruthy? (extract_ml descText)

/-- Source `_from_json_ld`.  The loop sets each field at the first Product
object whose contribution is truthy, which is a per-field `findSome?`. -/
def _from_json_ld (page : Page) : Chunk :=
  { name := (productObjs page).findSome? objName
  , price_value := (productObjs page).findSome? objPrice
  , bottle_size_ml := (productObjs page).findSome? objMl }

/-- Source `_from_meta_tags`: og:title for the name, the first of three
price-bearing metas whose content parses to a truthy price, og:description
for the size. -/
def _from_meta_tags (page : Page) : Chunk :=
  { name :=
      match page.metaOgTitle with
      | some el => strTruthy? (normalize_name (attrD el "content" ""))
      | none => none
  , price_value :=
      [page.metaItempropPrice, page.metaProductPriceAmount,
       page.metaTwitterData1].findSome? fun t =>
        match t with
        | some el =>
            qTruthy? (parse_price (pyOrStr (attrD el "content" "") (attrD el "value" "")))
        | none => none
  , bottle_size_ml :=
      match page.metaOgDescription with
      | some el => natTruthy? (extract_ml (attrD el "content" ""))
      | none => none }

/-- The `or`-cascade choosing the DOM heading element. -/
def domTitle (page : Page) : Option Element :=
  firstSet (firstSet (firstSet page.h1PageTitleBase page.h1Base) page.h1ProductName)
    page.h1Any

/-- The `or`-cascade choosing the DOM price element. -/
def domPriceEl (page : Page) : Option Element :=
  firstSet (firstSet page.priceSpanDataAmount page.priceWrapperPrice) page.priceSpan

/-- The `" | "`-joined search blob: description blocks, the heading, and the
tabular attribute rows. -/
def domBlob (page : Page) : String :=
  let blobs :=
    (([page.descriptionEl, page.productAttrDescriptionEl, page.shortDescriptionEl,
       page.productInfoMainEl].filterMap id).map Element.text)
    ++ (match domTitle page with
        | some el => [el.text]
        | none => [])
    ++ page.tableRows.map Element.text
  String.intercalate " | " blobs

/-- Source `_from_dom_selectors`: heading text for the name, the price
element (machine-readable attribute preferred over display text), and a
size scan over the joined blob. -/
def _from_dom_selectors (page : Page) : Chunk :=
  { name := (domTitle page).bind fun el => strTruthy? (normalize_name el.text)
  , price_value := (domPriceEl page).bind fun el =>
      qTruthy? (parse_price (pyOrStr ((attrGet el "data-price-amount").getD "") el.text))
  , bottle_size_ml :=
      if domBlob page = "" then none else natTruthy? (extract_ml (domBlob page)) }

/-- The merge loop body `if v and not data.get(k): data[k] = v`, field-wise
on collapsed chunks. -/
def mergeChunk (d c : Chunk) : Chunk :=
  { name := firstSet d.name c.name
  , price_value := firstSet d.price_value c.price_value
  , bottle_size_ml := firstSet d.bottle_size_ml c.bottle_size_ml }

/-- The strategy loop of `parse_pdp`: JSON-LD, then meta tags, then DOM. -/
def mergedData (page : Page) : Chunk :=
  [_from_json_ld, _from_meta_tags, _from_dom_selectors].foldl
    (fun d f => mergeChunk d (f page)) {}

-- ===========================================================================
-- Classification gate and `parse_pdp`
-- ===========================================================================

/-- Source `page_looks_like_product`: a case-insensitive substring test of
"product" against the og:type content, or a truthy JSON-LD Product name. -/
def page_looks_like_product (page : Page) : Bool :=
  (match page.metaOgType with
   | some el => strContains (pyLower (attrD el "content" "")) "product"
   | none => false)
  || (_from_json_ld page).name.isSome

/-- Prefix of the salvage pattern `₪\s*([0-9]+(?:[.,][0-9]+)?)`. -/
def salvagePre : RE :=
  .seq (.cls (fun c => c == '₪')) (.rep isPyWs 0 none)

/-- The hail-mary price scan over the raw markup, including the comma strip
inside `float(m.group(1).replace(",", ""))`. -/
def salvagePrice (html : String) : Option ℚ :=
  match reSearch salvagePre priceGrp .eps html.data with
  | some (g, _) => pyFloat? (g.filter (fun c => c != ','))
  | none => none

/-- Final name of `parse_pdp`: `normalize_name(data.get("name") or "")`. -/
def pdpName (page : Page) : String :=
  normalize_name ((mergedData page).name.getD "")

/-- Final price of `parse_pdp`: the merged price if any (`is None` check),
otherwise the raw-markup salvage. -/
def pdpPrice? (page : Page) : Option ℚ :=
  match (mergedData page).price_value with
  | some p => some p
  | none => salvagePrice page.html

/-- Final bottle size of `parse_pdp`: `if not ml: ml = 750`. -/
def pdpMl (page : Page) : Nat :=
  match (mergedData page).bottle_size_ml with
  | some m => if m = 0 then 750 else m
  | none => 750

/-- The extracted record (source dict keys `name`, `price_value`,
`bottle_size_ml`, `url`). -/
structure ProductRecord where
  name : String
  price_value : ℚ
  bottle_size_ml : Nat
  url : String
deriving DecidableEq

/-- Source `parse_pdp`.  The `BeautifulSoup` availability check always
passes under the assumed parsing capability. -/
def parse_pdp (page : Page) (url : String) : Option ProductRecord :=
  if page.html = "" then none
  else if page_looks_like_product page = false then none
  else if pdpName page = "" then none
  else
    match pdpPrice? page with
    | none => none
    | some price => some ⟨pdpName page, price, pdpMl page, url⟩

example :
    parse_pdp
      { html := "x",
        jsonLd := [some (.obj (.cons "@type" (.str "Product")
          (.cons "name" (.str "יין אדום")
            (.cons "offers" (.obj (.cons "price" (.str "120.00") .nil))
              (.cons "description" (.str "750 ml") .nil)))))] } "u" =
      some ⟨"יין אדום", mkRat 120 1, 750, "u"⟩ := by decide

example :
    parse_pdp
      { html := "y",
        metaOgType := some { attrs := [("content", "product")] },
        metaOgTitle := some { attrs := [("content", "Cabernet Sauvignon 2019")] },
        metaItempropPrice := some { attrs := [("content", "89,90")] } } "v" =
      some ⟨"Cabernet Sauvignon 2019", mkRat 8990 1, 750, "v"⟩ := by decide

example :
    parse_pdp
      { html := "<h1>Nice Wine</h1> ₪ 100",
        h1Any := some { text := "Nice Wine" },
        priceSpan := some { text := "₪ 100" } } "w" = none := by decide

-- ===========================================================================
-- Vivino rating matcher
-- ===========================================================================

def BING_SEARCH_URL : String := "https://www.bing.com/search"
def VIVINO_FALLBACK_SEARCH : String := "https://www.vivino.com/search/wines"

/-- The fixed token-substitution table, in source (insertion) order. -/
def HEB_TOKEN_MAP : List (String × String) :=
  [("ירדן", "Yarden"), ("גמלא", "Gamla"), ("יקב רמת הגולן", "Golan Heights Winery"),
   ("שאטו גולן", "Chateau Golan"), ("רקנאטי", "Recanati"), ("יתיר", "Yatir"),
   ("הרי גליל", "Galil Mountain"), ("פסגות", "Psagot"), ("דלתון", "Dalton"),
   ("ברקן", "Barkan"), ("כרמל", "Carmel"), ("טוליפ", "Tulip"), ("ויתקין", "Vitkin"),
   ("1848", "1848 Winery"), ("אבני החושן", "Even Hahoshen"), ("מוני", "Moni"),
   ("צרעה", "Tzora"), ("צובה", "Tzuba"), ("אדיר", "Adir"),
   ("קברנה סוביניון", "Cabernet Sauvignon"), ("קברנה פרנק", "Cabernet Franc"),
   ("מרלו", "Merlot"), ("שיראז", "Shiraz"), ("סירה", "Syrah"), ("פטיט סירה", "Petite Sirah"),
   ("פטי ורדו", "Petit Verdot"), ("מלבק", "Malbec"), ("טמפרניו", "Tempranillo"),
   ("סנג\x27ובזה", "Sangiovese"), ("גראנש", "Grenache"), ("פינו נואר", "Pinot Noir"),
   ("ריוחה", "Rioja"), ("רזרבה", "Reserva"), ("גראן רזרבה", "Gran Reserva"),
   ("קריאנזה", "Crianza"), ("בלנד", "Blend")]

/-- Source `_he_to_en_query`: sequential token substitution, quote characters
(`"`, `'` and the right single quote) replaced by spaces, whitespace
collapsed and stripped. -/
def _he_to_en_query (name : String) : String :=
  let q := HEB_TOKEN_MAP.foldl (fun q p => String.mk (replaceAll p.1.data p.2.data q.data)) name
  let q := String.mk (q.data.map
    (fun c => if c == '"' || c.toNat == 39 || c.toNat == 0x2019 then ' ' else c))
  String.mk (pyStripChars (collapseWs q.data))

/-- Pattern `<a href="(https?://[^"]+vivino[^"]+)"`. -/
def bingLinkPre : RE := .lit "<a href=\""

def bingLinkGrp : RE :=
  .seq (.lit "http")
    (.seq (.opt (.cls (fun c => c == 's')))
      (.seq (.lit "://")
        (.seq (.rep (fun c => c != '"') 1 none)
          (.seq (.lit "vivino") (.rep (fun c => c != '"') 1 none)))))

def bingLinkPost : RE := .lit "\""

/-- Python `dict.fromkeys` deduplication: first-seen order. -/
def dedupeFirstAux (seen : List String) : List String → List String
  | [] => []
  | x :: xs =>
      if seen.contains x then dedupeFirstAux seen xs
      else x :: dedupeFirstAux (x :: seen) xs

def dedupeFirst (l : List String) : List String :=
  dedupeFirstAux [] l

/-- The `urlsplit`/`urlunsplit` round trip with query and fragment blanked:
for the http(s) URLs at hand this truncates at the first `?` or `#`. -/
def canonicalizeUrl (u : String) : String :=
  String.mk (u.data.takeWhile (fun c => !(c == '?' || c == '#')))

/-- Source `_extract_all_vivino_links_from_bing`: collect matches, keep those
containing "/wines/", canonicalize, deduplicate first-seen. -/
def _extract_all_vivino_links_from_bing (html : String) : List String :=
  let urls := (reFindAll bingLinkPre bingLinkGrp bingLinkPost html.data).map String.mk
  let urls := urls.filter (fun u => strContains u "/wines/")
  dedupeFirst (urls.map canonicalizeUrl)

/-- Pattern `href="(/wines/[^"#?]+)"` of the fallback-search scrape. -/
def winesLinkPre : RE := .lit "href=\""

def winesLinkGrp : RE :=
  .seq (.lit "/wines/") (.rep (fun c => !(c == '"' || c == '#' || c == '?')) 1 none)

def winesLinkPost : RE := .lit "\""

/-- Helper to chain pattern pieces. -/
def reSeqs (l : List RE) : RE :=
  l.foldr RE.seq RE.eps

/-- Prefix of `"rating"\s*:\s*\x7b[^\x7d]*"average"\s*:\s*([0-9.]+)`. -/
def rating1Pre : RE :=
  reSeqs [.lit "\"rating\"", .rep isPyWs 0 none, .cls (fun c => c == ':'),
    .rep isPyWs 0 none, .cls (fun c => c == '\x7b'),
    .rep (fun c => c != '\x7d') 0 none, .lit "\"average\"",
    .rep isPyWs 0 none, .cls (fun c => c == ':'), .rep isPyWs 0 none]

/-- Capture `([0-9.]+)` of the structured-data rating pattern. -/
def rating1Grp : RE := .rep (fun c => c.isDigit || c == '.') 1 none

/-- Capture `([3-5]\.[0-9])` of the free-text rating pattern. -/
def rating2Grp : RE :=
  reSeqs [.cls (fun c => 51 ≤ c.toNat && c.toNat ≤ 53), .cls (fun c => c == '.'),
    .cls Char.isDigit]

/-- Tail `\s*(?:/|out of)?\s*5` of the free-text pattern (IGNORECASE). -/
def rating2Post : RE :=
  reSeqs [.rep isPyWs 0 none, .opt (.alt (.lit "/") (.litCI "out of")),
    .rep isPyWs 0 none, .cls (fun c => c == '5')]

/-- Value extracted by the structured-data-shaped pattern (`none` covers both
a failed search and a `float` failure, which the source swallows). -/
def vivinoRating1 (html : String) : Option ℚ :=
  match reSearch rating1Pre rating1Grp .eps html.data with
  | some (g, _) => pyFloat? g
  | none => none

/-- Value extracted by the free-text "X.Y out of 5 / X.Y/5" pattern. -/
def vivinoRating2 (html : String) : Option ℚ :=
  match reSearch .eps rating2Grp rating2Post html.data with
  | some (g, _) => pyFloat? g
  | none => none

/-- Second half of `_extract_vivino_rating_from_html`: the free-text value,
gated to the plausible range `[2.5, 5.0]`. -/
def ratingSecondPass (html : String) : Option ℚ :=
  match vivinoRating2 html with
  | some v => if mkRat 5 2 ≤ v ∧ v ≤ 5 then some v else none
  | none => none

/-- Source `_extract_vivino_rating_from_html`: structured pattern first
(falling through when missing, unparsable, or out of range), free-text
pattern second, each gated to `[2.5, 5.0]`. -/
def _extract_vivino_rating_from_html (html : String) : Option ℚ :=
  match vivinoRating1 html with
  | some v => if mkRat 5 2 ≤ v ∧ v ≤ 5 then some v else ratingSecondPass html
  | none => ratingSecondPass html

/-- Python `round(x, 2)` on the exact-rational model: round half to even at
two decimal places. -/
def round2 (q : ℚ) : ℚ :=
  let n : Int := q.num * 100
  let d : Int := (q.den : Int)
  let fl : Int := Int.fdiv n d
  let r : Int := n - fl * d
  let rounded : Int :=
    if 2 * r < d then fl
    else if d < 2 * r then fl + 1
    else if fl % 2 = 0 then fl else fl + 1
  mkRat rounded 100

/-- A positive lookup outcome (source dict `vivino_url` / `vivino_rating`). -/
structure MatchResult where
  vivino_url : String
  vivino_rating : ℚ
deriving DecidableEq

/-- The in-memory `vivino_cache` dict: insertion-ordered entries mapping a
name to a `MatchResult` or to the explicit negative marker (`none`). -/
abbrev VivinoCache := List (String × Option MatchResult)

/-- Python `key in cache` plus `cache[key]`. -/
def cacheLookup (cache : VivinoCache) (key : String) : Option (Option MatchResult) :=
  (cache.find? (fun p => p.1 == key)).map (fun p => p.2)

/-- Python dict assignment `cache[key] = v`. -/
def cacheStore : VivinoCache → String → Option MatchResult → VivinoCache
  | [], key, v => [(key, v)]
  | p :: rest, key, v =>
      if p.1 == key then (key, v) :: rest else p :: cacheStore rest key v

/-- Outcome of one GET against the fallback search endpoint: a 200 body, a
429 rate-limit response, or any other failure (a non-2xx status raised by
`raise_for_status`, a timeout, a transport error). -/
inductive FallbackResp where
  | ok (body : String)
  | rateLimited
  | err

/-- The network as `vivino_lookup` observes it.  `bingResp` is the
`fetch_text` outcome of the Bing query; `fallbackResp i` and `fallbackRand i`
are the outcome and the `random.random()` draw of backoff attempt `i`;
`pageResp` gives the `fetch_text` outcome per candidate detail page. -/
structure VivinoEnv where
  bingResp : Option String
  fallbackResp : Nat → FallbackResp
  fallbackRand : Nat → ℚ
  pageResp : String → Option String

/-- The attempt loop of `_fetch_vivino_search_with_backoff`.  Returns the
response text (or `none` after exhausting the attempts), the list of sleep
durations, and the number of GETs issued.  A 429 multiplies the delay by
`1.7 + random()*0.3`; any other failure multiplies it by `1.4`.  The
process-wide single-flight semaphore around the loop is a concurrency
device with no sequential content. -/
def backoffGo (env : VivinoEnv) : ℚ → List Nat → Option String × List ℚ × Nat
  | _, [] => (none, [], 0)
  | delay, attempt :: rest =>
      let sleep : ℚ := if attempt > 1 then delay else 0
      match env.fallbackResp attempt with
      | .ok b => (some b, [sleep], 1)
      | .rateLimited =>
          let r := backoffGo env (delay * (17/10 + env.fallbackRand attempt * (3/10))) rest
          (r.1, sleep :: r.2.1, r.2.2 + 1)
      | .err =>
          let r := backoffGo env (delay * (14/10)) rest
          (r.1, sleep :: r.2.1, r.2.2 + 1)

/-- Source `_fetch_vivino_search_with_backoff`: initial delay 2.0, at most 6
attempts. -/
def _fetch_vivino_search_with_backoff (env : VivinoEnv) : Option String × List ℚ × Nat :=
  backoffGo env 2 [1, 2, 3, 4, 5, 6]

/-- Candidate-URL collection of `vivino_lookup`: Bing first; when it yields
nothing, the fallback search through the backoff gate, its `/wines/` hrefs
joined onto the Vivino origin and deduplicated.  Also returns the list of
fallback GETs issued. -/
def vivinoSearchPhase (env : VivinoEnv) : List String × List String :=
  let fromBing : List String :=
    match env.bingResp with
    | some h => _extract_all_vivino_links_from_bing h
    | none => []
  if fromBing = [] then
    let b := _fetch_vivino_search_with_backoff env
    (match b.1 with
     | some vhtml =>
         (dedupeFirst (((reFindAll winesLinkPre winesLinkGrp winesLinkPost vhtml.data).map
             String.mk).map (fun path => "https://www.vivino.com" ++ path)),
          List.replicate b.2.2 VIVINO_FALLBACK_SEARCH)
     | none => ([], List.replicate b.2.2 VIVINO_FALLBACK_SEARCH))
  else (fromBing, [])

/-- The candidate-scan loop of `vivino_lookup` over `viv_urls[:3]`: fetch
each page, skip empty/failed fetches, and on the first in-range rating cache
and return the rounded result; scanning all candidates without success
stores the explicit negative marker.  Returns (result, updated cache, pages
fetched). -/
def scanCandidates (env : VivinoEnv) (cache : VivinoCache) (key : String) :
    List String → Option MatchResult × VivinoCache × List String
  | [] => (none, cacheStore cache key none, [])
  | vu :: rest =>
      match env.pageResp vu with
      | none =>
          let r := scanCandidates env cache key rest
          (r.1, r.2.1, vu :: r.2.2)
      | some page =>
          if page = "" then
            let r := scanCandidates env cache key rest
            (r.1, r.2.1, vu :: r.2.2)
          else
            match _extract_vivino_rating_from_html page with
            | some rating =>
                let res : MatchResult := ⟨vu, round2 rating⟩
                (some res, cacheStore cache key (some res), [vu])
            | none =>
                let r := scanCandidates env cache key rest
                (r.1, r.2.1, vu :: r.2.2)

/-- Source `vivino_lookup`: strip the name, return a cache hit (positive or
negative) immediately with no network activity, otherwise translate the
query, search, scan up to three candidates, and cache the outcome.  The
third component lists the network requests issued, in order. -/
def vivino_lookup (env : VivinoEnv) (cache : VivinoCache) (wine_name : String) :
    Option MatchResult × VivinoCache × List String :=
  let key := pyStrip wine_name
  match cacheLookup cache key with
  | some v => (v, cache, [])
  | none =>
      let q_en := _he_to_en_query wine_name
      let sp := vivinoSearchPhase env
      let scan := scanCandidates env cache key (sp.1.take 3)
      (scan.1, scan.2.1,
       (BING_SEARCH_URL ++ "?q=site:vivino.com \"" ++ q_en ++ "\"") :: sp.2 ++ scan.2.2)

example :
    _extract_vivino_rating_from_html "x \"rating\": \x7b\"average\": 4.35\x7d" =
      some (mkRat 435 100) := by decide
example :
    _extract_vivino_rating_from_html "\"rating\": \x7b\"average\": 1.2\x7d" = none := by
  decide
example : _extract_vivino_rating_from_html "rated 4.3/5 by users" = some (mkRat 43 10) := by
  decide
example : round2 (mkRat 435 100) = mkRat 435 100 := by decide
example : round2 (mkRat 4333 1000) = mkRat 433 100 := by decide
example :
    _extract_all_vivino_links_from_bing
      "<a href=\"https://www.vivino.com/wines/123?x=1\"> <a href=\"https://www.vivino.com/wines/123\">" =
      ["https://www.vivino.com/wines/123"] := by decide

-- ===========================================================================
-- Helper lemmas
-- ===========================================================================

theorem extract_ml_eq_core (s : String) : extract_ml s = extractMlCore (cleanCommas s) := by
  by_cases h : s = ""
  · subst h; decide
  · unfold extract_ml; rw [if_neg h]

theorem parse_price_eq_core (s : String) : parse_price s = parsePriceCore (cleanCommas s) := by
  by_cases h : s = ""
  · subst h; decide
  · unfold parse_price; rw [if_neg h]

theorem cleanCommas_append (a b : String) : cleanCommas (a ++ b) = cleanCommas a ++ cleanCommas b := by
  unfold cleanCommas
  rw [String.data_append, List.filter_append]

theorem cleanCommas_comma : cleanCommas "," = [] := by decide

-- ===========================================================================
-- C1
-- ===========================================================================

/-- C1: bottle-size extraction strips thousands-separator commas before
pattern matching — inserting a comma anywhere in the input never changes the
result — and "1,500 ml" yields the full 1500, never 500 or 1. -/
theorem extract_ml_thousands_separator :
    (∀ a b : String, extract_ml (a ++ "," ++ b) = extract_ml (a ++ b)) ∧
    extract_ml "1,500 ml" = some 1500 ∧
    extract_ml "1,500 ml" ≠ some 500 ∧ extract_ml "1,500 ml" ≠ some 1 := by
  refine ⟨fun a b => ?_, by decide, by decide, by decide⟩
  rw [extract_ml_eq_core, extract_ml_eq_core, cleanCommas_append, cleanCommas_append,
    cleanCommas_append, cleanCommas_comma, List.append_nil]

-- ===========================================================================
-- C9
-- ===========================================================================

/-- C9: price parsing removes every comma before matching the first number,
so a comma never acts as a decimal separator — "89,90" parses to 8990. -/
theorem parse_price_comma_is_thousands_separator :
    (∀ a b : String, parse_price (a ++ "," ++ b) = parse_price (a ++ b)) ∧
    parse_price "89,90" = some 8990 ∧
    parse_price "89,90" ≠ some (mkRat 899 10) := by
  refine ⟨fun a b => ?_, by decide, by decide⟩
  rw [parse_price_eq_core, parse_price_eq_core, cleanCommas_append, cleanCommas_append,
    cleanCommas_append, cleanCommas_comma, List.append_nil]

-- ===========================================================================
-- C8
-- ===========================================================================

/-- C8: after separator removal, a number followed by a unit token is
accepted with no range check; otherwise a bare 2–5 digit number is accepted
exactly when it lies in [50, 3000]; in all other cases nothing is returned. -/
theorem extract_ml_acceptance :
    (∀ (s : String) (n : Nat),
        extract_ml s = some n ↔
          (mlUnitSearch (cleanCommas s) = some n ∨
           (mlUnitSearch (cleanCommas s) = none ∧ mlBareSearch (cleanCommas s) = some n ∧
            50 ≤ n ∧ n ≤ 3000))) ∧
    extract_ml "9999 ml" = some 9999 ∧
    extract_ml "4000" = none ∧
    extract_ml "120" = some 120 ∧
    extract_ml "45" = none ∧
    extract_ml "no size here" = none := by
  refine ⟨fun s n => ?_, by decide, by decide, by decide, by decide, by decide⟩
  rw [extract_ml_eq_core]
  unfold extractMlCore
  cases h1 : mlUnitSearch (cleanCommas s) with
  | some m => simp [h1]
  | none =>
      cases h2 : mlBareSearch (cleanCommas s) with
      | some m =>
          dsimp only
          by_cases hc : 50 ≤ m ∧ m ≤ 3000
          · rw [if_pos hc]
            constructor
            · intro h
              obtain rfl : m = n := Option.some.inj h
              exact Or.inr ⟨rfl, rfl, hc.1, hc.2⟩
            · rintro (h | ⟨-, h, -, -⟩)
              · cases h
              · exact h
          · rw [if_neg hc]
            constructor
            · intro h; cases h
            · rintro (h | ⟨-, h, hr1, hr2⟩)
              · cases h
              · obtain rfl : m = n := Option.some.inj h
                exact absurd ⟨hr1, hr2⟩ hc
      | none => simp


-- ===========================================================================
-- Nonnegativity of every parsed price
-- ===========================================================================

theorem pyFloat?_nonneg {g : List Char} {q : ℚ} (h : pyFloat? g = some q) : 0 ≤ q := by
  simp only [pyFloat?] at h
  split at h
  · split at h
    · cases h
    · obtain rfl : _ = q := Option.some.inj h
      rw [Rat.mkRat_eq_div]
      positivity
  · split at h
    · split at h
      · cases h
      · obtain rfl : _ = q := Option.some.inj h
        rw [Rat.mkRat_eq_div]
        positivity
    · cases h
  · cases h

theorem parsePriceCore_nonneg {s : List Char} {q : ℚ} (h : parsePriceCore s = some q) :
    0 ≤ q := by
  unfold parsePriceCore at h
  split at h
  · exact pyFloat?_nonneg h
  · cases h

theorem parse_price_nonneg {s : String} {q : ℚ} (h : parse_price s = some q) : 0 ≤ q := by
  rw [parse_price_eq_core] at h
  exact parsePriceCore_nonneg h

theorem salvagePrice_nonneg {s : String} {q : ℚ} (h : salvagePrice s = some q) : 0 ≤ q := by
  unfold salvagePrice at h
  split at h
  · exact pyFloat?_nonneg h
  · cases h

theorem qTruthy?_some {o : Option ℚ} {q : ℚ} (h : qTruthy? o = some q) :
    o = some q ∧ q ≠ 0 := by
  unfold qTruthy? at h
  split at h
  · split at h
    · cases h
    · exact ⟨by rw [Option.some.inj h], fun h0 => by simp_all⟩
  · cases h

theorem findSome?_prop {α β : Type _} {f : α → Option β} {P : β → Prop}
    (hf : ∀ a b, f a = some b → P b) :
    ∀ {l : List α} {b : β}, l.findSome? f = some b → P b := by
  intro l
  induction l with
  | nil => intro b h; simp [List.findSome?] at h
  | cons x xs ih =>
      intro b h
      rw [List.findSome?_cons] at h
      cases hx : f x with
      | some v =>
          rw [hx] at h
          exact (Option.some.inj h) ▸ hf x v hx
      | none =>
          rw [hx] at h
          exact ih h

theorem objPrice_nonneg (fs : JsonFields) (q : ℚ) (h : objPrice fs = some q) : 0 ≤ q := by
  simp only [objPrice] at h
  split at h
  · split at h
    · split at h
      · exact parse_price_nonneg (qTruthy?_some h).1
      · cases h
    · cases h
  · cases h

theorem jsonld_price_nonneg {page : Page} {q : ℚ}
    (h : (_from_json_ld page).price_value = some q) : 0 ≤ q :=
  findSome?_prop objPrice_nonneg h

theorem meta_price_nonneg {page : Page} {q : ℚ}
    (h : (_from_meta_tags page).price_value = some q) : 0 ≤ q := by
  refine findSome?_prop (fun t b hb => ?_) h
  match t with
  | some el => exact parse_price_nonneg (qTruthy?_some hb).1
  | none => cases hb

theorem dom_price_nonneg {page : Page} {q : ℚ}
    (h : (_from_dom_selectors page).price_value = some q) : 0 ≤ q := by
  simp only [_from_dom_selectors] at h
  cases he : domPriceEl page with
  | some el =>
      rw [he] at h
      exact parse_price_nonneg (qTruthy?_some h).1
  | none => rw [he] at h; cases h

theorem firstSet_none {α : Type _} (b : Option α) : firstSet none b = b := rfl

theorem firstSet_assoc {α : Type _} (a b c : Option α) :
    firstSet (firstSet a b) c = firstSet a (firstSet b c) := by
  cases a <;> rfl

theorem firstSet_cases {α : Type _} {a b : Option α} {x : α} (h : firstSet a b = some x) :
    a = some x ∨ (a = none ∧ b = some x) := by
  cases a with
  | some v => exact Or.inl (by simpa [firstSet] using h)
  | none => exact Or.inr ⟨rfl, by simpa [firstSet] using h⟩

theorem mergeChunk_name (a b : Chunk) : (mergeChunk a b).name = firstSet a.name b.name := rfl

theorem mergeChunk_price (a b : Chunk) :
    (mergeChunk a b).price_value = firstSet a.price_value b.price_value := rfl

theorem mergeChunk_ml (a b : Chunk) :
    (mergeChunk a b).bottle_size_ml = firstSet a.bottle_size_ml b.bottle_size_ml := rfl

theorem emptyChunk_name : ({} : Chunk).name = none := rfl

theorem emptyChunk_price : ({} : Chunk).price_value = none := rfl

theorem emptyChunk_ml : ({} : Chunk).bottle_size_ml = none := rfl

theorem mergedData_eq (page : Page) :
    mergedData page =
      mergeChunk (mergeChunk (mergeChunk {} (_from_json_ld page)) (_from_meta_tags page))
        (_from_dom_selectors page) := rfl

theorem mergedData_name (page : Page) :
    (mergedData page).name =
      firstSet (_from_json_ld page).name
        (firstSet (_from_meta_tags page).name (_from_dom_selectors page).name) := by
  rw [mergedData_eq, mergeChunk_name, mergeChunk_name, mergeChunk_name, emptyChunk_name,
    firstSet_none, firstSet_assoc]

theorem mergedData_price (page : Page) :
    (mergedData page).price_value =
      firstSet (_from_json_ld page).price_value
        (firstSet (_from_meta_tags page).price_value (_from_dom_selectors page).price_value) := by
  rw [mergedData_eq, mergeChunk_price, mergeChunk_price, mergeChunk_price, emptyChunk_price,
    firstSet_none, firstSet_assoc]

theorem mergedData_ml (page : Page) :
    (mergedData page).bottle_size_ml =
      firstSet (_from_json_ld page).bottle_size_ml
        (firstSet (_from_meta_tags page).bottle_size_ml
          (_from_dom_selectors page).bottle_size_ml) := by
  rw [mergedData_eq, mergeChunk_ml, mergeChunk_ml, mergeChunk_ml, emptyChunk_ml,
    firstSet_none, firstSet_assoc]

theorem merged_price_nonneg {page : Page} {q : ℚ}
    (h : (mergedData page).price_value = some q) : 0 ≤ q := by
  rw [mergedData_price] at h
  rcases firstSet_cases h with h1 | ⟨-, h1⟩
  · exact jsonld_price_nonneg h1
  · rcases firstSet_cases h1 with h2 | ⟨-, h2⟩
    · exact meta_price_nonneg h2
    · exact dom_price_nonneg h2

theorem pdpPrice?_nonneg {page : Page} {q : ℚ} (h : pdpPrice? page = some q) : 0 ≤ q := by
  unfold pdpPrice? at h
  split at h
  · next p hp =>
      obtain rfl : p = q := Option.some.inj h
      exact merged_price_nonneg hp
  · exact salvagePrice_nonneg h

-- ===========================================================================
-- C2
-- ===========================================================================

/-- C2: the strategies are merged in the fixed order JSON-LD, meta tags, DOM
heuristics; per field the first strategy with a non-empty value wins and is
never overwritten, so a JSON-LD name beats a differing meta-tag name. -/
theorem strategy_merge_priority :
    (∀ page : Page,
        (mergedData page).name =
          firstSet (_from_json_ld page).name
            (firstSet (_from_meta_tags page).name (_from_dom_selectors page).name) ∧
        (mergedData page).price_value =
          firstSet (_from_json_ld page).price_value
            (firstSet (_from_meta_tags page).price_value
              (_from_dom_selectors page).price_value) ∧
        (mergedData page).bottle_size_ml =
          firstSet (_from_json_ld page).bottle_size_ml
            (firstSet (_from_meta_tags page).bottle_size_ml
              (_from_dom_selectors page).bottle_size_ml)) ∧
    (∀ (page : Page) (url : String) (r : ProductRecord) (n : String),
        (_from_json_ld page).name = some n → parse_pdp page url = some r →
        r.name = normalize_name n) := by
  refine ⟨fun page => ⟨mergedData_name page, mergedData_price page, mergedData_ml page⟩, ?_⟩
  intro page url r n hj hp
  have hname : (mergedData page).name = some n := by
    rw [mergedData_name page, hj]; rfl
  unfold parse_pdp at hp
  split at hp
  · cases hp
  · split at hp
    · cases hp
    · split at hp
      · cases hp
      · split at hp
        · cases hp
        · obtain rfl : _ = r := Option.some.inj hp
          show pdpName page = normalize_name n
          unfold pdpName
          rw [hname]
          rfl

theorem strategy_merge_priority_witness :
    (ProductRecord.mk "Alpha" (mkRat 120 1) 750 "u").name = normalize_name "Alpha" :=
  strategy_merge_priority.2
    { html := "x",
      jsonLd := [some (.obj (.cons "@type" (.str "Product")
        (.cons "name" (.str "Alpha")
          (.cons "offers" (.obj (.cons "price" (.str "120") .nil)) .nil))))],
      metaOgTitle := some { attrs := [("content", "Beta")] } }
    "u" ⟨"Alpha", mkRat 120 1, 750, "u"⟩ "Alpha" (by decide) (by decide)

-- ===========================================================================
-- C3
-- ===========================================================================

theorem pdpMl_pos (page : Page) : 0 < pdpMl page := by
  unfold pdpMl
  split
  · split
    · norm_num
    · next hm => exact Nat.pos_of_ne_zero hm
  · norm_num

theorem pdpMl_default (page : Page) (h : (mergedData page).bottle_size_ml = none) :
    pdpMl page = 750 := by
  unfold pdpMl
  rw [h]

def pgC3 : Page :=
  { html := "y3",
    metaOgType := some { attrs := [("content", "product")] },
    metaOgTitle := some { attrs := [("content", "Gamma")] },
    metaItempropPrice := some { attrs := [("content", "59")] } }

/-- C3: a record is produced exactly when the page is non-empty, passes the
gate, has a non-empty normalized name and a resolved price (strategy or
salvage); a missing bottle size defaults to 750; and every record carries a
non-empty name, a non-negative price, a positive size, and the input URL. -/
theorem parse_pdp_record_contract :
    (∀ (page : Page) (url : String) (r : ProductRecord),
        parse_pdp page url = some r →
        r.name ≠ "" ∧ 0 ≤ r.price_value ∧ 0 < r.bottle_size_ml ∧ r.url = url ∧
        ((mergedData page).bottle_size_ml = none → r.bottle_size_ml = 750)) ∧
    (∀ (page : Page) (url : String),
        (parse_pdp page url).isSome ↔
          page.html ≠ "" ∧ page_looks_like_product page = true ∧ pdpName page ≠ "" ∧
          (pdpPrice? page).isSome) := by
  constructor
  · intro page url r hp
    unfold parse_pdp at hp
    split at hp
    · cases hp
    · split at hp
      · cases hp
      · split at hp
        · cases hp
        · next hn =>
            split at hp
            · cases hp
            · next price hpr =>
                obtain rfl : _ = r := Option.some.inj hp
                exact ⟨hn, pdpPrice?_nonneg hpr, pdpMl_pos page, rfl,
                  fun hnone => pdpMl_default page hnone⟩
  · intro page url
    unfold parse_pdp
    by_cases h1 : page.html = ""
    · simp [h1]
    · rw [if_neg h1]
      by_cases h2 : page_looks_like_product page = false
      · simp [h2]
      · have h2' : page_looks_like_product page = true := by
          cases hgate : page_looks_like_product page
          · exact absurd hgate h2
          · rfl
        rw [if_neg h2]
        by_cases h3 : pdpName page = ""
        · simp [h1, h3]
        · rw [if_neg h3]
          cases hpr : pdpPrice? page with
          | none => simp [h1, h2', h3, hpr]
          | some p => simp [h1, h2', h3, hpr]

theorem parse_pdp_record_contract_witness :
    (ProductRecord.mk "Gamma" (mkRat 59 1) 750 "u3").name ≠ "" ∧
    0 ≤ (ProductRecord.mk "Gamma" (mkRat 59 1) 750 "u3").price_value ∧
    0 < (ProductRecord.mk "Gamma" (mkRat 59 1) 750 "u3").bottle_size_ml ∧
    (ProductRecord.mk "Gamma" (mkRat 59 1) 750 "u3").url = "u3" ∧
    ((mergedData pgC3).bottle_size_ml = none →
      (ProductRecord.mk "Gamma" (mkRat 59 1) 750 "u3").bottle_size_ml = 750) :=
  parse_pdp_record_contract.1 pgC3 "u3" ⟨"Gamma", mkRat 59 1, 750, "u3"⟩ (by decide)

-- ===========================================================================
-- C4
-- ===========================================================================

def pgC4 : Page :=
  { html := "<h1>Nice Wine</h1> ₪ 100",
    h1Any := some { text := "Nice Wine" },
    priceSpan := some { text := "₪ 100" } }

/-- C4: a page that neither carries a product-type og marker nor yields a
JSON-LD Product name fails the gate, and any page failing the gate is
rejected outright — even one with a heading and price-looking text. -/
theorem classification_gate_rejects :
    (∀ (page : Page) (url : String), page_looks_like_product page = false →
        parse_pdp page url = none) ∧
    (∀ page : Page,
        page_looks_like_product page = true ↔
          ((∃ el, page.metaOgType = some el ∧
              strContains (pyLower (attrD el "content" "")) "product" = true) ∨
           (_from_json_ld page).name.isSome = true)) ∧
    page_looks_like_product pgC4 = false ∧
    parse_pdp pgC4 "u" = none := by
  refine ⟨?_, ?_, by decide, by decide⟩
  · intro page url h
    unfold parse_pdp
    simp [h]
  · intro page
    unfold page_looks_like_product
    cases hog : page.metaOgType with
    | some el => simp [hog]
    | none => simp [hog]

theorem classification_gate_rejects_witness :
    parse_pdp pgC4 "w" = none :=
  classification_gate_rejects.1 pgC4 "w" (by decide)

-- ===========================================================================
-- C10
-- ===========================================================================

def pgC10 : Page :=
  { html := "z",
    metaOgType := some { attrs := [("content", "product.group")] },
    metaOgTitle := some { attrs := [("content", "Cabernet Sauvignon 2019")] },
    metaItempropPrice := some { attrs := [("content", "89.90")] } }

/-- C10: the gate's product-type check is a case-insensitive substring test,
not equality: any og:type content containing "product" (such as
"og:product" or "product.group") passes, and such a page goes on to full
extraction even with no structured data present. -/
theorem gate_marker_is_substring_test :
    (∀ (page : Page) (el : Element), page.metaOgType = some el →
        page_looks_like_product page =
          (strContains (pyLower (attrD el "content" "")) "product" ||
           (_from_json_ld page).name.isSome)) ∧
    page_looks_like_product { metaOgType := some { attrs := [("content", "og:product")] } } = true ∧
    page_looks_like_product { metaOgType := some { attrs := [("content", "PRODUCT.group")] } } = true ∧
    page_looks_like_product { metaOgType := some { attrs := [("content", "article")] } } = false ∧
    parse_pdp pgC10 "u" = some ⟨"Cabernet Sauvignon 2019", mkRat 899 10, 750, "u"⟩ := by
  refine ⟨?_, by decide, by decide, by decide, by decide⟩
  intro page el h
  unfold page_looks_like_product
  rw [h]

theorem gate_marker_is_substring_test_witness :
    page_looks_like_product pgC10 =
      (strContains (pyLower (attrD { attrs := [("content", "product.group")] } "content" ""))
         "product" ||
       (_from_json_ld pgC10).name.isSome) :=
  gate_marker_is_substring_test.1 pgC10 { attrs := [("content", "product.group")] } (by decide)

-- ===========================================================================
-- C5
-- ===========================================================================

/-- C5: a name with a cache entry — positive or the explicit negative
marker — is answered from the cache: the cached value is returned, the cache
is unchanged, and no network request is issued. -/
theorem vivino_lookup_cache_hit :
    ∀ (env : VivinoEnv) (cache : VivinoCache) (name : String) (v : Option MatchResult),
      cacheLookup cache (pyStrip name) = some v →
      vivino_lookup env cache name = (v, cache, []) := by
  intro env cache name v h
  simp only [vivino_lookup]
  rw [h]

theorem vivino_lookup_cache_hit_witness :
    vivino_lookup ⟨none, fun _ => .err, fun _ => 0, fun _ => none⟩
        [("Wine A", some ⟨"https://www.vivino.com/wines/1", mkRat 42 10⟩),
         ("Wine B", none)] "Wine A" =
      (some ⟨"https://www.vivino.com/wines/1", mkRat 42 10⟩,
       [("Wine A", some ⟨"https://www.vivino.com/wines/1", mkRat 42 10⟩),
        ("Wine B", none)], []) :=
  vivino_lookup_cache_hit _ _ _ _ (by decide)

-- ===========================================================================
-- C6
-- ===========================================================================

theorem ratingSecondPass_range {h : String} {v : ℚ} (he : ratingSecondPass h = some v) :
    mkRat 5 2 ≤ v ∧ v ≤ 5 := by
  unfold ratingSecondPass at he
  split at he
  · split at he
    · next hr =>
        obtain rfl : _ = v := Option.some.inj he
        exact hr
    · cases he
  · cases he

theorem rating_extract_range {h : String} {v : ℚ}
    (he : _extract_vivino_rating_from_html h = some v) : mkRat 5 2 ≤ v ∧ v ≤ 5 := by
  unfold _extract_vivino_rating_from_html at he
  split at he
  · split at he
    · next hr =>
        obtain rfl : _ = v := Option.some.inj he
        exact hr
    · exact ratingSecondPass_range he
  · exact ratingSecondPass_range he

theorem scanCandidates_success {env : VivinoEnv} {cache : VivinoCache} {key : String}
    {res : MatchResult} :
    ∀ {l : List String}, (scanCandidates env cache key l).1 = some res →
      ∃ vu page r, env.pageResp vu = some page ∧
        _extract_vivino_rating_from_html page = some r ∧ res = ⟨vu, round2 r⟩ := by
  intro l
  induction l with
  | nil => intro h; cases h
  | cons vu rest ih =>
      intro h
      unfold scanCandidates at h
      cases hpg : env.pageResp vu with
      | none =>
          rw [hpg] at h
          exact ih h
      | some page =>
          rw [hpg] at h
          dsimp only at h
          by_cases hemp : page = ""
          · rw [if_pos hemp] at h
            exact ih h
          · rw [if_neg hemp] at h
            cases hex : _extract_vivino_rating_from_html page with
            | some rating =>
                rw [hex] at h
                have h' : some (MatchResult.mk vu (round2 rating)) = some res := h
                exact ⟨vu, page, rating, hpg, hex, (Option.some.inj h').symm⟩
            | none =>
                rw [hex] at h
                exact ih h

def s12 : String := "\"rating\": \x7b\"average\": 1.2\x7d"

/-- C6: rating extraction tries the structured pattern before the free-text
pattern; an extracted value is accepted exactly when it lies in [2.5, 5.0]
(1.2 is discarded, 4.3 accepted); and every positive lookup result carries
an in-range rating rounded to two decimal places. -/
theorem rating_extraction_rules :
    (∀ (h : String) (v : ℚ), _extract_vivino_rating_from_html h = some v →
        mkRat 5 2 ≤ v ∧ v ≤ 5) ∧
    (∀ (h : String) (v : ℚ), vivinoRating1 h = some v → mkRat 5 2 ≤ v → v ≤ 5 →
        _extract_vivino_rating_from_html h = some v) ∧
    (∀ h : String, (∀ v : ℚ, vivinoRating1 h = some v → ¬(mkRat 5 2 ≤ v ∧ v ≤ 5)) →
        _extract_vivino_rating_from_html h = ratingSecondPass h) ∧
    vivinoRating1 s12 = some (mkRat 12 10) ∧
    _extract_vivino_rating_from_html s12 = none ∧
    _extract_vivino_rating_from_html "score 4.3/5" = some (mkRat 43 10) ∧
    (∀ (env : VivinoEnv) (cache : VivinoCache) (name : String) (res : MatchResult)
        (c : VivinoCache) (reqs : List String),
        cacheLookup cache (pyStrip name) = none →
        vivino_lookup env cache name = (some res, c, reqs) →
        ∃ r, mkRat 5 2 ≤ r ∧ r ≤ 5 ∧ res.vivino_rating = round2 r) := by
  refine ⟨fun h v he => rating_extract_range he, ?_, ?_, by decide, by decide, by decide, ?_⟩
  · intro h v h1 hlo hhi
    unfold _extract_vivino_rating_from_html
    rw [h1]
    dsimp only
    rw [if_pos ⟨hlo, hhi⟩]
  · intro h hno
    unfold _extract_vivino_rating_from_html
    cases h1 : vivinoRating1 h with
    | some v =>
        dsimp only
        rw [if_neg (hno v h1)]
    | none => rfl
  · intro env cache name res c reqs hmiss hlook
    simp only [vivino_lookup] at hlook
    rw [hmiss] at hlook
    have h1 : (scanCandidates env cache (pyStrip name)
        ((vivinoSearchPhase env).1.take 3)).1 = some res := by
      have h2 := congrArg (fun t => t.1) hlook
      simpa using h2
    obtain ⟨vu, page, r, hpg, hex, rfl⟩ := scanCandidates_success h1
    exact ⟨r, (rating_extract_range hex).1, (rating_extract_range hex).2, rfl⟩

def env6 : VivinoEnv :=
  { bingResp := some "<a href=\"https://www.vivino.com/wines/9\">",
    fallbackResp := fun _ => .err,
    fallbackRand := fun _ => 0,
    pageResp := fun u =>
      if u = "https://www.vivino.com/wines/9" then
        some "\"rating\": \x7b\"average\": 4.35\x7d"
      else none }

theorem rating_extraction_rules_witness :
    ∃ r, mkRat 5 2 ≤ r ∧ r ≤ 5 ∧
      (MatchResult.mk "https://www.vivino.com/wines/9" (mkRat 435 100)).vivino_rating =
        round2 r :=
  rating_extraction_rules.2.2.2.2.2.2 env6 [] "W"
    ⟨"https://www.vivino.com/wines/9", mkRat 435 100⟩
    [("W", some ⟨"https://www.vivino.com/wines/9", mkRat 435 100⟩)]
    ["https://www.bing.com/search?q=site:vivino.com \"W\"",
     "https://www.vivino.com/wines/9"]
    (by decide) (by decide)

-- ===========================================================================
-- C7
-- ===========================================================================

/-- Delay growth factor drawn at a rate-limited attempt. -/
def backoffFactor (env : VivinoEnv) (i : Nat) : ℚ :=
  17/10 + env.fallbackRand i * (3/10)

/-- C7: when every fallback-search attempt is rate limited, the gate issues
exactly 6 requests with delays growing by a factor in [1.7, 2.0) per
attempt, returns absent, and the surrounding lookup then finds no
candidates and caches the negative marker. -/
theorem fallback_backoff_exhaustion :
    ∀ env : VivinoEnv,
      (∀ i, 1 ≤ i → i ≤ 6 → env.fallbackResp i = .rateLimited) →
      (∀ i, 0 ≤ env.fallbackRand i ∧ env.fallbackRand i < 1) →
      (_fetch_vivino_search_with_backoff env).1 = none ∧
      (_fetch_vivino_search_with_backoff env).2.2 = 6 ∧
      (_fetch_vivino_search_with_backoff env).2.1 =
        [0, 2 * backoffFactor env 1, 2 * backoffFactor env 1 * backoffFactor env 2,
         2 * backoffFactor env 1 * backoffFactor env 2 * backoffFactor env 3,
         2 * backoffFactor env 1 * backoffFactor env 2 * backoffFactor env 3 *
           backoffFactor env 4,
         2 * backoffFactor env 1 * backoffFactor env 2 * backoffFactor env 3 *
           backoffFactor env 4 * backoffFactor env 5] ∧
      List.Chain' (fun a b => 17/10 * a ≤ b ∧ b < 2 * a)
        (_fetch_vivino_search_with_backoff env).2.1.tail ∧
      (∀ (cache : VivinoCache) (name : String),
          cacheLookup cache (pyStrip name) = none → env.bingResp = none →
          (vivino_lookup env cache name).1 = none ∧
          (vivino_lookup env cache name).2.1 = cacheStore cache (pyStrip name) none) := by
  intro env h429 hrand
  have e1 := h429 1 (by norm_num) (by norm_num)
  have e2 := h429 2 (by norm_num) (by norm_num)
  have e3 := h429 3 (by norm_num) (by norm_num)
  have e4 := h429 4 (by norm_num) (by norm_num)
  have e5 := h429 5 (by norm_num) (by norm_num)
  have e6 := h429 6 (by norm_num) (by norm_num)
  have hfb : _fetch_vivino_search_with_backoff env =
      (none,
       [0, 2 * backoffFactor env 1, 2 * backoffFactor env 1 * backoffFactor env 2,
        2 * backoffFactor env 1 * backoffFactor env 2 * backoffFactor env 3,
        2 * backoffFactor env 1 * backoffFactor env 2 * backoffFactor env 3 *
          backoffFactor env 4,
        2 * backoffFactor env 1 * backoffFactor env 2 * backoffFactor env 3 *
          backoffFactor env 4 * backoffFactor env 5], 6) := by
    simp [_fetch_vivino_search_with_backoff, backoffGo, e1, e2, e3, e4, e5, e6, backoffFactor]
  have hf : ∀ i, 17/10 ≤ backoffFactor env i ∧ backoffFactor env i < 2 := by
    intro i
    obtain ⟨ha, hb⟩ := hrand i
    unfold backoffFactor
    constructor <;> nlinarith
  have hfpos : ∀ i, 0 < backoffFactor env i :=
    fun i => lt_of_lt_of_le (by norm_num) (hf i).1
  have hp1 : 0 < 2 * backoffFactor env 1 := mul_pos (by norm_num) (hfpos 1)
  have hp2 : 0 < 2 * backoffFactor env 1 * backoffFactor env 2 := mul_pos hp1 (hfpos 2)
  have hp3 : 0 < 2 * backoffFactor env 1 * backoffFactor env 2 * backoffFactor env 3 :=
    mul_pos hp2 (hfpos 3)
  have hp4 : 0 < 2 * backoffFactor env 1 * backoffFactor env 2 * backoffFactor env 3 *
      backoffFactor env 4 := mul_pos hp3 (hfpos 4)
  refine ⟨by rw [hfb], by rw [hfb], by rw [hfb], ?_, ?_⟩
  · rw [hfb]
    refine List.Chain'.cons ⟨?_, ?_⟩ (List.Chain'.cons ⟨?_, ?_⟩
      (List.Chain'.cons ⟨?_, ?_⟩ (List.Chain'.cons ⟨?_, ?_⟩ (List.chain'_singleton _))))
    · nlinarith [mul_le_mul_of_nonneg_left (hf 2).1 hp1.le]
    · nlinarith [mul_lt_mul_of_pos_left (hf 2).2 hp1]
    · nlinarith [mul_le_mul_of_nonneg_left (hf 3).1 hp2.le]
    · nlinarith [mul_lt_mul_of_pos_left (hf 3).2 hp2]
    · nlinarith [mul_le_mul_of_nonneg_left (hf 4).1 hp3.le]
    · nlinarith [mul_lt_mul_of_pos_left (hf 4).2 hp3]
    · nlinarith [mul_le_mul_of_nonneg_left (hf 5).1 hp4.le]
    · nlinarith [mul_lt_mul_of_pos_left (hf 5).2 hp4]
  · intro cache nm hm hbing
    constructor <;>
      simp [vivino_lookup, hm, vivinoSearchPhase, hbing, hfb, scanCandidates]

def env7 : VivinoEnv :=
  { bingResp := none, fallbackResp := fun _ => .rateLimited,
    fallbackRand := fun _ => 0, pageResp := fun _ => none }

theorem fallback_backoff_exhaustion_witness :
    (_fetch_vivino_search_with_backoff env7).1 = none ∧
    (_fetch_vivino_search_with_backoff env7).2.2 = 6 ∧
    (vivino_lookup env7 [] "W").1 = none := by
  have h := fallback_backoff_exhaustion env7 (fun _ _ _ => rfl)
    (fun i => ⟨le_refl 0, show (0 : ℚ) < 1 by norm_num⟩)
  exact ⟨h.1, h.2.1, (h.2.2.2.2 [] "W" (by decide) rfl).1⟩
